import Mathlib

/-!
# Verification of the strudel-agent song store and daemon

Shallow embedding of the core of the `strudel-agent` repository:

* the Version Store (`storage.ts`): `makeSong`, `updateSong`, `detailSong`,
  and the directory-marker file lock `withLock`;
* the daemon request handlers (`daemon.ts`): `handlePlay`, `handleStop`,
  `handlePause`, `handleEvaluate`, `handleValidate`, `handleCurrent`,
  together with the inactivity timer; and
* the CLI `update` command action (`cli.ts`).

Strings whose characters matter (song code, search/replace strings) are
modelled as `List Char`; JavaScript `String.prototype.indexOf`,
`substring` and concatenation become list operations.  Timestamps are
abstract `Nat` values.  The audio engine is opaque and modelled by a
record of outcomes (`Engine`), per the spec's treatment of it as an
external collaborator.
-/

namespace Strudel

/-! ## Data model (`types.ts`) -/

/-- `SongVersion` from `types.ts`: one immutable snapshot.  `createdAt`
is an abstract timestamp. -/
structure SongVersion where
  code : List Char
  createdAt : Nat
  deriving Repr, DecidableEq

/-- `Song` from `types.ts`: an ordered list of versions. -/
structure Song where
  versions : List SongVersion
  deriving Repr, DecidableEq

/-- `SongsData` from `types.ts`: the `songs` record, modelled as an
association list from song name to `Song` (JS object keyed by name). -/
structure SongsData where
  songs : List (String × Song)
  deriving Repr, DecidableEq

/-- Lookup `data.songs[name]`. -/
def getSong (data : SongsData) (name : String) : Option Song :=
  data.songs.lookup name

/-- Assignment `data.songs[name] = s` on the association list: replaces
the existing binding in place or appends a new one. -/
def setSongs : List (String × Song) → String → Song → List (String × Song)
  | [], n, s => [(n, s)]
  | (k, v) :: t, n, s =>
    if k = n then (n, s) :: t else (k, v) :: setSongs t n s

/-- `data.songs[name] = s` at the `SongsData` level. -/
def setSong (data : SongsData) (name : String) (s : Song) : SongsData :=
  ⟨setSongs data.songs name s⟩

/-- Error taxonomy of the Version Store (`storage.ts` throws `Error`s;
we give each distinct message a constructor, with the payloads the
messages interpolate). -/
inductive StoreErr where
  | alreadyExists
  | notFound
  | emptyFrom
  | badIndex
  | noMatch
  | ambiguous (count : Nat)
  | indexOutOfRange (idx : Int) (count : Nat)
  | versionOutOfRange (total : Nat)
  | internalError
  deriving Repr, DecidableEq

/-! ## Substring search (`code.indexOf(from, searchPos)` and the
match-collection loop of `updateSong`, storage.ts lines 117-125) -/

/-- `from` occurs in `s` at character offset `p`. -/
def occursAt (s pat : List Char) (p : Nat) : Bool :=
  pat.isPrefixOf (s.drop p)

/-- Linear scan underlying `indexOf`: try positions `p, p+1, ...`,
`fuel` of them, returning the first where `pat` occurs. -/
def indexOfGo (s pat : List Char) : Nat → Nat → Option Nat
  | 0, _ => none
  | fuel + 1, p => if occursAt s pat p then some p else indexOfGo s pat fuel (p + 1)

/-- Denotation of JavaScript `s.indexOf(pat, start)` (as an `Option`
instead of `-1`): the least position `≥ start` where `pat` occurs. -/
def jsIndexOf (s pat : List Char) (start : Nat) : Option Nat :=
  indexOfGo s pat (s.length + 1 - start) start

/-- The match-collection loop of `updateSong`: starting at `searchPos`,
find the next occurrence `p`, record it, and restart at `p + 1`
(storage.ts line 124: `searchPos = idx + 1`).  `fuel` bounds the number
of iterations; `matchesOf` supplies enough. -/
def collectMatches (s pat : List Char) : Nat → Nat → List Nat
  | 0, _ => []
  | fuel + 1, searchPos =>
    match jsIndexOf s pat searchPos with
    | none => []
    | some p => p :: collectMatches s pat fuel (p + 1)

/-- The `matches` array computed by `updateSong`. -/
def matchesOf (s pat : List Char) : List Nat :=
  collectMatches s pat (s.length + 1) 0

/-! ## Version Store operations (`storage.ts`)

Each operation is a pure function `SongsData → SongsData × Except …`:
the returned `SongsData` is the durable file contents after the call
(unchanged when the operation throws before saving). -/

/-- `makeSong(name, code)` (storage.ts lines 63-80). -/
def makeSong (data : SongsData) (name : String) (code : List Char) (now : Nat) :
    SongsData × Except StoreErr SongVersion :=
  match getSong data name with
  | some _ => (data, .error .alreadyExists)
  | none =>
    let v : SongVersion := ⟨code, now⟩
    (setSong data name ⟨[v]⟩, .ok v)

/-- The `--index` validation of `updateSong` (storage.ts lines 99-104):
a supplied index must be a non-negative integer.  (A non-numeric or
fractional CLI argument is outside the `Int` model.) -/
def badIndexArg : Option Int → Bool
  | none => false
  | some i => i < 0

/-- `updateSong(name, from, to, index?)` (storage.ts lines 87-159):
find & replace in the latest version's code, appending a new version.
Returns the possibly-updated store together with the result
`(newCode, 1-based version number)` or the thrown error. -/
def updateSong (data : SongsData) (name : String) (frm repl : List Char)
    (index : Option Int) (now : Nat) :
    SongsData × Except StoreErr (List Char × Nat) :=
  if frm = [] then (data, .error .emptyFrom)
  else if badIndexArg index then (data, .error .badIndex)
  else
    match getSong data name with
    | none => (data, .error .notFound)
    | some song =>
      match song.versions.getLast? with
      | none => (data, .error .internalError)
      | some latest =>
        let code := latest.code
        let ms := matchesOf code frm
        if ms.length = 0 then (data, .error .noMatch)
        else if 1 < ms.length ∧ index = none then
          (data, .error (.ambiguous ms.length))
        else
          let targetIndex : Int := index.getD 0
          if targetIndex < 0 ∨ (ms.length : Int) ≤ targetIndex then
            (data, .error (.indexOutOfRange targetIndex ms.length))
          else
            let pos := ms.getD targetIndex.toNat 0
            let newCode := code.take pos ++ repl ++ code.drop (pos + frm.length)
            let newVersions := song.versions ++ [⟨newCode, now⟩]
            (setSong data name ⟨newVersions⟩, .ok (newCode, newVersions.length))

/-- Result record of `detailSong`. -/
structure DetailResult where
  code : List Char
  version : Nat
  totalVersions : Nat
  createdAt : Nat
  deriving Repr, DecidableEq

/-- `detailSong(name, version?)` (storage.ts lines 164-191).  The
version argument is a JS number; `version ? version - 1 :
totalVersions - 1` treats both `undefined` and `0` as falsy, which the
model renders by the explicit `v = 0` test. -/
def detailSong (data : SongsData) (name : String) (version : Option Int) :
    Except StoreErr DetailResult :=
  match getSong data name with
  | none => .error .notFound
  | some song =>
    let totalVersions : Nat := song.versions.length
    let versionIndex : Int :=
      match version with
      | none => (totalVersions : Int) - 1
      | some v => if v = 0 then (totalVersions : Int) - 1 else v - 1
    if versionIndex < 0 ∨ (totalVersions : Int) ≤ versionIndex then
      .error (.versionOutOfRange totalVersions)
    else
      let sv := song.versions.getD versionIndex.toNat ⟨[], 0⟩
      .ok ⟨sv.code, versionIndex.toNat + 1, totalVersions, sv.createdAt⟩

/-! ## File lock (`withLock`, storage.ts lines 31-55) -/

/-- `LOCK_TIMEOUT` (storage.ts line 32). -/
def LOCK_TIMEOUT : Nat := 5000

/-- Outcome of one iteration of the acquisition loop. -/
inductive LockStep where
  | acquired
  | forceClearRetry
  | backoffRetry (ms : Nat)
  deriving Repr, DecidableEq

/-- One iteration of the acquisition loop of `withLock` (storage.ts
lines 36-49): `mkdir` succeeds iff no marker exists; on `EEXIST`, if
`Date.now() - start > LOCK_TIMEOUT` the marker is removed and the loop
retries at once (the `// Stale lock` branch), otherwise the loop sleeps
50 ms and retries.  `start` is the time this caller entered the loop,
`now` the current time, and `marker` the lock marker (present with its
creation time, or absent). -/
def acquireStep (start now : Nat) (marker : Option Nat) : LockStep :=
  match marker with
  | none => .acquired
  | some _ =>
    if LOCK_TIMEOUT < now - start then .forceClearRetry else .backoffRetry 50

/-- The durable state `withLock` mediates: the lock marker (with its
creation time) and the songs file. -/
structure FS where
  lock : Option Nat
  songs : SongsData
  deriving Repr, DecidableEq

/-- The body of `withLock` once the marker is held (storage.ts lines
50-54): run `fn`, and in the `finally` remove the marker whether `fn`
returned or threw, propagating `fn`'s outcome.  (In the sequential
model the acquisition loop always terminates — at once when no marker
exists, after the timeout takeover otherwise.) -/
def withLock (w : FS) (fn : SongsData → SongsData × Except StoreErr α) :
    FS × Except StoreErr α :=
  let acquired : FS := { lock := some 1, songs := w.songs }
  let step := fn acquired.songs
  match step.2 with
  | .ok a => ({ lock := none, songs := step.1 }, .ok a)
  | .error e => ({ lock := none, songs := step.1 }, .error e)

/-! ## Daemon (`daemon.ts`)

The audio engine is opaque (`engine.evaluate/stop/pause/validate`); a
request's interaction with it is summarised by an `Engine` record of
outcomes.  Each handler maps the in-memory `DaemonState` to a new
state, a response body, and whether it called `resetInactivityTimer`. -/

/-- `PlaybackState` from `types.ts`. -/
inductive PState where
  | playing
  | paused
  | stopped
  deriving Repr, DecidableEq

/-- `DaemonState` from `types.ts`: the daemon's in-memory playback
snapshot. -/
structure DaemonState where
  name : Option String := none
  version : Option Nat := none
  state : PState
  code : Option String := none
  deriving Repr, DecidableEq

/-- Outcomes of the opaque engine calls a request may make. -/
structure Engine where
  init : Bool
  evalOk : Bool
  stopThrows : Bool
  pauseThrows : Bool
  valid : Bool
  deriving Repr, DecidableEq

/-- JS `a || b` on an optional string (`undefined` and `""` are
falsy). -/
def jsOrStr (a b : Option String) : Option String :=
  match a with
  | none => b
  | some s => if s = "" then b else some s

/-- JS `a || b` on an optional number (`undefined` and `0` are
falsy). -/
def jsOrNat (a b : Option Nat) : Option Nat :=
  match a with
  | none => b
  | some n => if n = 0 then b else some n

/-- Response bodies of the daemon's HTTP handlers. -/
inductive RespBody where
  | badRequest
  | errorResp
  | playOk (name : Option String) (version : Option Nat) (state : PState)
  | stopOk
  | pauseOk
  | evalAck
  | validateOk (valid : Bool)
  | currentSnapshot (st : DaemonState)
  deriving Repr, DecidableEq

/-- The `state` field of a response body, when it has one (`"paused"`
in `{ok:true, state:"paused"}`, etc.). -/
def RespBody.stateField : RespBody → Option PState
  | .playOk _ _ s => some s
  | .stopOk => some .stopped
  | .pauseOk => some .paused
  | .currentSnapshot st => some st.state
  | _ => none

/-- `handlePlay` (daemon.ts lines 89-126). -/
def handlePlay (st : DaemonState) (eng : Engine) (code name : Option String)
    (version : Option Nat) : DaemonState × RespBody × Bool :=
  match code with
  | none => (st, .badRequest, false)
  | some c =>
    if c = "" then (st, .badRequest, false)
    else if !eng.init then (st, .errorResp, false)
    else if st.state = .playing && eng.stopThrows then (st, .errorResp, false)
    else if !eng.evalOk then (st, .errorResp, false)
    else
      let st' : DaemonState :=
        { state := .playing, name := jsOrStr name none,
          version := jsOrNat version none, code := some c }
      (st', .playOk st'.name st'.version st'.state, true)

/-- `handleStop` (daemon.ts lines 128-141). -/
def handleStop (st : DaemonState) (eng : Engine) : DaemonState × RespBody × Bool :=
  if eng.init && eng.stopThrows then (st, .errorResp, false)
  else ({ state := .stopped }, .stopOk, true)

/-- `handlePause` (daemon.ts lines 143-158): `engine.pause()` is always
attempted, but the stored state moves to `paused` only from `playing`;
the response says `"paused"` regardless. -/
def handlePause (st : DaemonState) (eng : Engine) : DaemonState × RespBody × Bool :=
  if eng.init && eng.pauseThrows then (st, .errorResp, false)
  else
    let st' := if st.state = .playing then { st with state := .paused } else st
    (st', .pauseOk, true)

/-- `handleEvaluate` (daemon.ts lines 160-193): like play but without
the stop, and `name`/`version` fall back to the prior snapshot. -/
def handleEvaluate (st : DaemonState) (eng : Engine) (code name : Option String)
    (version : Option Nat) : DaemonState × RespBody × Bool :=
  match code with
  | none => (st, .badRequest, false)
  | some c =>
    if c = "" then (st, .badRequest, false)
    else if !eng.init then (st, .errorResp, false)
    else if !eng.evalOk then (st, .errorResp, false)
    else
      let st' : DaemonState :=
        { state := .playing, name := jsOrStr name st.name,
          version := jsOrNat version st.version, code := some c }
      (st', .evalAck, true)

/-- `handleValidate` (daemon.ts lines 195-217): reports the engine's
verdict and does not touch the playback state — nor, unlike the other
four mutating handlers, the inactivity timer. -/
def handleValidate (st : DaemonState) (eng : Engine) (code : Option String) :
    DaemonState × RespBody × Bool :=
  match code with
  | none => (st, .badRequest, false)
  | some c =>
    if c = "" then (st, .badRequest, false)
    else if !eng.init then (st, .errorResp, false)
    else (st, .validateOk eng.valid, false)

/-- `handleCurrent` (daemon.ts lines 85-87). -/
def handleCurrent (st : DaemonState) : DaemonState × RespBody × Bool :=
  (st, .currentSnapshot st, false)

/-- `INACTIVITY_TIMEOUT_MS` (constants.ts line 241). -/
def INACTIVITY_TIMEOUT_MS : Nat := 30 * 60 * 1000

/-- The daemon process: playback snapshot plus the absolute time at
which the single inactivity timer will fire. -/
structure DaemonProc where
  st : DaemonState
  deadline : Nat
  deriving Repr, DecidableEq

/-- The daemon's request surface (daemon.ts lines 221-247). -/
inductive Request where
  | play (code name : Option String) (version : Option Nat)
  | stop
  | pause
  | evaluate (code name : Option String) (version : Option Nat)
  | validate (code : Option String)
  | current
  deriving Repr, DecidableEq

/-- Route a request to its handler. -/
def dispatch (st : DaemonState) (eng : Engine) : Request → DaemonState × RespBody × Bool
  | .play c n v => handlePlay st eng c n v
  | .stop => handleStop st eng
  | .pause => handlePause st eng
  | .evaluate c n v => handleEvaluate st eng c n v
  | .validate c => handleValidate st eng c
  | .current => handleCurrent st

/-- Handle one request at time `now`: the inactivity deadline moves to
`now + INACTIVITY_TIMEOUT_MS` exactly when the handler called
`resetInactivityTimer` (`clearTimeout` of the old timer plus a fresh
`setTimeout`, daemon.ts lines 50-57). -/
def handleRequest (p : DaemonProc) (eng : Engine) (now : Nat) (req : Request) :
    DaemonProc × RespBody :=
  let out := dispatch p.st eng req
  (⟨out.1, if out.2.2 then now + INACTIVITY_TIMEOUT_MS else p.deadline⟩, out.2.1)

/-! ## CLI `update` command (`cli.ts` lines 883-918) -/

/-- What the `update` command action did after `storage.updateSong`:
whether the new version was persisted, whether `client.evaluate` ran,
and the reported outcome (`exit 1` for all but `played`). -/
inductive CmdOutcome where
  | updateFailed (e : StoreErr)
  | savedNotPlayed (version : Nat)
  | evalFailed (version : Nat)
  | played (version : Nat)
  deriving Repr, DecidableEq

/-- The `update` command action: find & replace via `updateSong`, then
validate the updated code; on validation failure report "saved as
v{n} but NOT playing" and skip the `client.evaluate` auto-play step,
without rolling back the persisted version.  `valid` is the engine's
verdict on the updated code, `evalOk` whether `client.evaluate`
succeeds. -/
def updateCommand (data : SongsData) (name : String) (frm repl : List Char)
    (index : Option Int) (now : Nat) (valid evalOk : Bool) :
    SongsData × CmdOutcome :=
  match updateSong data name frm repl index now with
  | (d, .error e) => (d, .updateFailed e)
  | (d, .ok r) =>
    if !valid then (d, .savedNotPlayed r.2)
    else if !evalOk then (d, .evalFailed r.2)
    else (d, .played r.2)

/-- Whether a response body is a success (`{ok:true, …}`) rather than a
400/500 error. -/
def RespBody.isOk : RespBody → Bool
  | .badRequest => false
  | .errorResp => false
  | _ => true

/-- One `updateSong` call of a CLI session: its arguments and
timestamp. -/
structure UpdateOp where
  frm : List Char
  repl : List Char
  index : Option Int
  now : Nat
  deriving Repr, DecidableEq

/-- Run a sequence of `updateSong` calls on one song, tracking the code
returned by the most recent call; `none` as soon as one call throws
(so `some` means every call succeeded). -/
def runUpdates (name : String) : SongsData × List Char → List UpdateOp → Option (SongsData × List Char)
  | acc, [] => some acc
  | acc, op :: ops =>
    match updateSong acc.1 name op.frm op.repl op.index op.now with
    | (d', .ok r) => runUpdates name (d', r.1) ops
    | (_, .error _) => none

/-! ## Concrete stores, states and engines used by the closed theorems -/

/-- The name of the example song. -/
def exName : String := "x"

/-- An example code string at the daemon level. -/
def exCode : String := "s(bd)"

/-- The empty store (fresh `songs.json`). -/
def exEmptyStore : SongsData := ⟨[]⟩

/-- A one-song store: `x` has the single version `"aaa"`. -/
def exSongAaa : SongsData := ⟨[(exName, ⟨[⟨['a', 'a', 'a'], 0⟩]⟩)]⟩

/-- `exSongAaa` after replacing the occurrence of `"aa"` at offset 0 by
`"Z"` at time 5. -/
def exSongAaaZ5 : SongsData := ⟨[(exName, ⟨[⟨['a', 'a', 'a'], 0⟩, ⟨['Z', 'a'], 5⟩]⟩)]⟩

/-- `exSongAaa` after replacing the occurrence of `"aa"` at offset 1 by
`"Z"` at time 7. -/
def exSongAaaZ7 : SongsData := ⟨[(exName, ⟨[⟨['a', 'a', 'a'], 0⟩, ⟨['a', 'Z'], 7⟩]⟩)]⟩

/-- A one-song store: `x` has versions `"A"` then `"B"`. -/
def exSongAB : SongsData := ⟨[(exName, ⟨[⟨['A'], 0⟩, ⟨['B'], 1⟩]⟩)]⟩

/-- A one-song store: `x` has the single version `"A"`. -/
def exSongA : SongsData := ⟨[(exName, ⟨[⟨['A'], 10⟩]⟩)]⟩

/-- `exSongA` after the update replacing `"A"` by `"B"` at time 11. -/
def exSongAB11 : SongsData := ⟨[(exName, ⟨[⟨['A'], 10⟩, ⟨['B'], 11⟩]⟩)]⟩

/-- The update call replacing `"A"` by `"B"` at time 11. -/
def exOpAB : UpdateOp := ⟨['A'], ['B'], none, 11⟩

/-- An engine on which every call succeeds. -/
def niceEngine : Engine := ⟨true, true, false, false, true⟩

/-- An engine on which `evaluate` rejects. -/
def evalFailEngine : Engine := ⟨true, false, false, false, true⟩

/-- A daemon snapshot that is currently paused. -/
def pausedSnapshot : DaemonState := ⟨some exName, some 1, PState.paused, some exCode⟩

/-- A daemon snapshot that is currently stopped. -/
def stoppedSnapshot : DaemonState := ⟨none, none, PState.stopped, none⟩

/-- A daemon snapshot that is currently playing. -/
def playingSnapshot : DaemonState := ⟨some exName, some 1, PState.playing, some exCode⟩

/-- A daemon process with a stopped snapshot and an arbitrary pending
deadline. -/
def exProc : DaemonProc := ⟨stoppedSnapshot, 7⟩

/-! ## Helper lemmas -/

/-- Writing a song under `name` makes it the value `lookup name` sees. -/
theorem lookup_setSongs_self (l : List (String × Song)) (n : String) (s : Song) :
    (setSongs l n s).lookup n = some s := by
  induction l with
  | nil => simp [setSongs, List.lookup]
  | cons kv t ih =>
    obtain ⟨k, v⟩ := kv
    by_cases h : k = n
    · subst h
      simp [setSongs, List.lookup]
    · simp only [setSongs, if_neg h, List.lookup]
      have : (n == k) = false := by
        simp [beq_eq_false_iff_ne]
        exact fun hnk => h hnk.symm
      rw [this]
      exact ih

/-- `getSong` after `setSong` at the same name. -/
theorem getSong_setSong_self (data : SongsData) (n : String) (s : Song) :
    getSong (setSong data n s) n = some s :=
  lookup_setSongs_self data.songs n s

/-- The linear scan returns the head of the filtered range: the least
position in `[p, p + fuel)` where the pattern occurs. -/
theorem indexOfGo_eq_filter_head (s pat : List Char) :
    ∀ (fuel p : Nat), indexOfGo s pat fuel p =
      ((List.range' p fuel).filter (fun q => occursAt s pat q)).head? := by
  intro fuel
  induction fuel with
  | zero => intro p; simp [indexOfGo]
  | succ m ih =>
    intro p
    rw [List.range'_succ, List.filter_cons]
    by_cases h : occursAt s pat p = true
    · simp [indexOfGo, h]
    · simp only [indexOfGo, h, if_neg, Bool.false_eq_true, if_false]
      exact ih (p + 1)

/-- Nothing before the head of a filtered consecutive range satisfies
the predicate. -/
theorem filter_range'_head_min (pred : Nat → Bool) :
    ∀ (n a p : Nat), ((List.range' a n).filter pred).head? = some p →
      ∀ q, a ≤ q → q < p → pred q = false := by
  intro n
  induction n with
  | zero => intro a p h; simp at h
  | succ m ih =>
    intro a p h q haq hqp
    rw [List.range'_succ, List.filter_cons] at h
    by_cases hp : pred a = true
    · rw [if_pos hp] at h
      simp only [List.head?_cons, Option.some.injEq] at h
      omega
    · rw [if_neg hp] at h
      rcases Nat.eq_or_lt_of_le haq with rfl | hlt
      · simpa using hp
      · exact ih (a + 1) p h q hlt hqp

/-- The match-collection loop of `updateSong` collects exactly the
positions in `[start, s.length]` where the pattern occurs, in order:
restarting at `p + 1` skips nothing, so overlapping occurrences are all
individually enumerated. -/
theorem collectMatches_eq_filter (s pat : List Char) :
    ∀ (fuel start : Nat), s.length + 1 ≤ start + fuel →
      collectMatches s pat fuel start =
        (List.range' start (s.length + 1 - start)).filter (fun q => occursAt s pat q) := by
  intro fuel
  induction fuel with
  | zero =>
    intro start h
    have h0 : s.length + 1 - start = 0 := by omega
    simp [collectMatches, h0]
  | succ m ih =>
    intro start h
    have hjs : jsIndexOf s pat start =
        ((List.range' start (s.length + 1 - start)).filter (fun q => occursAt s pat q)).head? :=
      indexOfGo_eq_filter_head s pat (s.length + 1 - start) start
    cases hfind : jsIndexOf s pat start with
    | none =>
      have hnil : (List.range' start (s.length + 1 - start)).filter
          (fun q => occursAt s pat q) = [] := by
        rw [hjs] at hfind
        rwa [List.head?_eq_none_iff] at hfind
      simp only [collectMatches, hfind, hnil]
    | some p =>
      have hhead : ((List.range' start (s.length + 1 - start)).filter
          (fun q => occursAt s pat q)).head? = some p := by
        rw [← hjs]
        exact hfind
      have hmem : p ∈ (List.range' start (s.length + 1 - start)).filter
          (fun q => occursAt s pat q) := by
        cases hl : (List.range' start (s.length + 1 - start)).filter
            (fun q => occursAt s pat q) with
        | nil => rw [hl] at hhead; simp at hhead
        | cons x xs =>
          rw [hl] at hhead
          simp only [List.head?_cons, Option.some.injEq] at hhead
          subst hhead
          exact List.mem_cons_self x xs
      have hbounds := List.mem_range'_1.mp (List.mem_filter.mp hmem).1
      have hpred : occursAt s pat p = true := (List.mem_filter.mp hmem).2
      have hstart : start ≤ p := hbounds.1
      have hlt : p < s.length + 1 := by omega
      have hdecomp : (List.range' start (s.length + 1 - start)).filter
            (fun q => occursAt s pat q)
          = p :: (List.range' (p + 1) (s.length + 1 - (p + 1))).filter
            (fun q => occursAt s pat q) := by
        have hsplit : List.range' start (p - start) ++ List.range' p (s.length + 1 - p)
            = List.range' start (s.length + 1 - start) := by
          have := List.range'_append start (p - start) (s.length + 1 - p) 1
          simp only [one_mul] at this
          rw [show start + (p - start) = p by omega] at this
          rw [show s.length + 1 - p + (p - start) = s.length + 1 - start by omega] at this
          exact this
        rw [← hsplit, List.filter_append]
        have hnil : (List.range' start (p - start)).filter (fun q => occursAt s pat q) = [] := by
          rw [List.filter_eq_nil_iff]
          intro a ha
          have hb := List.mem_range'_1.mp ha
          have := filter_range'_head_min (fun q => occursAt s pat q)
            (s.length + 1 - start) start p hhead a hb.1 (by omega)
          simp [this]
        rw [hnil, List.nil_append]
        have hrest : List.range' p (s.length + 1 - p)
            = p :: List.range' (p + 1) (s.length + 1 - (p + 1)) := by
          rw [show s.length + 1 - p = (s.length + 1 - (p + 1)) + 1 by omega,
            List.range'_succ]
        rw [hrest, List.filter_cons, if_pos hpred]
      simp only [collectMatches, hfind]
      rw [hdecomp]
      congr 1
      exact ih (p + 1) (by omega)

/-- The `matches` array of `updateSong` holds exactly the occurrence
positions of the pattern, in increasing order. -/
theorem matchesOf_eq_filter (s pat : List Char) :
    matchesOf s pat = (List.range (s.length + 1)).filter (fun q => occursAt s pat q) := by
  rw [List.range_eq_range']
  exact collectMatches_eq_filter s pat (s.length + 1) 0 (by omega)

/-- Characterisation of a successful `makeSong`. -/
theorem makeSong_ok {data d' : SongsData} {name : String} {code : List Char}
    {now : Nat} {v : SongVersion}
    (h : makeSong data name code now = (d', .ok v)) :
    getSong data name = none ∧ d' = setSong data name ⟨[⟨code, now⟩]⟩ ∧ v = ⟨code, now⟩ := by
  unfold makeSong at h
  cases hg : getSong data name with
  | some s => rw [hg] at h; simp at h
  | none =>
    rw [hg] at h
    simp only [Prod.mk.injEq, Except.ok.injEq] at h
    exact ⟨rfl, h.1.symm, h.2.symm⟩

/-- Characterisation of a successful `updateSong`: the store afterwards
holds the old versions plus one appended version carrying the returned
code, and the returned version number is the new length. -/
theorem updateSong_ok {data d' : SongsData} {name : String} {frm repl : List Char}
    {index : Option Int} {now : Nat} {c : List Char} {v : Nat}
    (h : updateSong data name frm repl index now = (d', .ok (c, v))) :
    ∃ song, getSong data name = some song ∧
      d' = setSong data name ⟨song.versions ++ [⟨c, now⟩]⟩ ∧
      v = song.versions.length + 1 := by
  unfold updateSong at h
  split at h
  · simp at h
  · split at h
    · simp at h
    · cases hg : getSong data name with
      | none => rw [hg] at h; simp at h
      | some song =>
        rw [hg] at h
        simp only at h
        refine ⟨song, rfl, ?_⟩
        cases hl : song.versions.getLast? with
        | none => rw [hl] at h; simp at h
        | some latest =>
          rw [hl] at h
          simp only at h
          split at h
          · simp at h
          · split at h
            · simp at h
            · split at h
              · simp at h
              · simp only [Prod.mk.injEq, Except.ok.injEq] at h
                obtain ⟨hd, hc, hv⟩ := h
                subst hc
                constructor
                · exact hd.symm
                · simp [← hv]

/-- `detailSong` with the version argument omitted returns the latest
version. -/
theorem detailSong_none {data : SongsData} {name : String} {song : Song} {sv : SongVersion}
    (hs : getSong data name = some song) (hl : song.versions.getLast? = some sv) :
    detailSong data name none =
      .ok ⟨sv.code, song.versions.length, song.versions.length, sv.createdAt⟩ := by
  have hne : song.versions ≠ [] := by
    intro hnil
    rw [hnil] at hl
    simp at hl
  have hpos : 0 < song.versions.length := List.length_pos.mpr hne
  have htn : ((song.versions.length : Int) - 1).toNat = song.versions.length - 1 := by omega
  have hget : song.versions[song.versions.length - 1]? = some sv := by
    rw [← List.getLast?_eq_getElem?]
    exact hl
  have hgetd : song.versions.getD (((song.versions.length : Int) - 1).toNat) ⟨[], 0⟩ = sv := by
    rw [List.getD_eq_getElem?_getD, htn, hget]
    rfl
  unfold detailSong
  rw [hs]
  simp only
  rw [if_neg (by omega)]
  rw [hgetd, htn]
  rw [show song.versions.length - 1 + 1 = song.versions.length by omega]

/-- `detailSong` with `version = 0` computes the same result as with
the argument omitted: `0` is falsy in `version ? version - 1 :
totalVersions - 1`. -/
theorem detailSong_zero (data : SongsData) (name : String) :
    detailSong data name (some 0) = detailSong data name none := by
  unfold detailSong
  cases getSong data name with
  | none => rfl
  | some song => simp

/-- Invariant of a run of successful `updateSong` calls: the version
list grows by exactly one per call and its last element carries the
code returned by the last call. -/
theorem runUpdates_detail (name : String) :
    ∀ (ops : List UpdateOp) (data : SongsData) (song : Song) (lastCode : List Char) (t : Nat)
      (dataN : SongsData) (lastCodeN : List Char),
      getSong data name = some song →
      song.versions.getLast? = some ⟨lastCode, t⟩ →
      runUpdates name (data, lastCode) ops = some (dataN, lastCodeN) →
      ∃ songN tN, getSong dataN name = some songN ∧
        songN.versions.length = song.versions.length + ops.length ∧
        songN.versions.getLast? = some ⟨lastCodeN, tN⟩ := by
  intro ops
  induction ops with
  | nil =>
    intro data song lastCode t dataN lastCodeN hs hl hr
    simp only [runUpdates, Option.some.injEq, Prod.mk.injEq] at hr
    obtain ⟨rfl, rfl⟩ := hr
    exact ⟨song, t, hs, by simp, hl⟩
  | cons op ops ih =>
    intro data song lastCode t dataN lastCodeN hs hl hr
    simp only [runUpdates] at hr
    cases hu : updateSong data name op.frm op.repl op.index op.now with
    | mk d r =>
      cases r with
      | error e => rw [hu] at hr; simp at hr
      | ok rr =>
        rw [hu] at hr
        simp only at hr
        obtain ⟨c, v⟩ := rr
        obtain ⟨song', hs', hd, hv⟩ := updateSong_ok hu
        rw [hs] at hs'
        injection hs' with hss
        subst hss
        subst hd
        have hs2 : getSong (setSong data name ⟨song.versions ++ [⟨c, op.now⟩]⟩) name
            = some ⟨song.versions ++ [⟨c, op.now⟩]⟩ := getSong_setSong_self data name _
        have hl2 : (song.versions ++ [(⟨c, op.now⟩ : SongVersion)]).getLast? = some ⟨c, op.now⟩ :=
          List.getLast?_concat _
        obtain ⟨songN, tN, hsN, hlenN, hlastN⟩ :=
          ih _ _ c op.now dataN lastCodeN hs2 hl2 hr
        refine ⟨songN, tN, hsN, ?_, hlastN⟩
        simp only [List.length_append, List.length_cons, List.length_nil] at hlenN
        simp only [List.length_cons]
        omega

/-! ## Claims -/

/-- C1: for every song created with `makeSong(name, code0)` followed by
N successful `updateSong` calls on that name, `detailSong(name)` with
no version argument returns the code produced by the Nth (last) update,
and the returned `totalVersions` equals N + 1. -/
theorem c1_detail_after_updates
    (data0 data1 dataN : SongsData) (name : String) (code0 lastCode : List Char)
    (now0 : Nat) (v0 : SongVersion) (ops : List UpdateOp)
    (hmk : makeSong data0 name code0 now0 = (data1, .ok v0))
    (hrun : runUpdates name (data1, code0) ops = some (dataN, lastCode)) :
    ∃ ts, detailSong dataN name none =
      .ok ⟨lastCode, ops.length + 1, ops.length + 1, ts⟩ := by
  obtain ⟨hnone, hd1, hv⟩ := makeSong_ok hmk
  subst hd1
  have hs1 : getSong (setSong data0 name ⟨[⟨code0, now0⟩]⟩) name = some ⟨[⟨code0, now0⟩]⟩ :=
    getSong_setSong_self data0 name _
  obtain ⟨songN, tN, hsN, hlen, hlast⟩ :=
    runUpdates_detail name ops _ _ code0 now0 dataN lastCode hs1 (by simp) hrun
  refine ⟨tN, ?_⟩
  have hdn := detailSong_none hsN hlast
  rw [hdn]
  have hl1 : songN.versions.length = ops.length + 1 := by
    simp only [List.length_cons, List.length_nil] at hlen
    omega
  rw [hl1]

/-- Witness for C1: create `x` with code `"A"` at time 10, apply one
successful update replacing `"A"` by `"B"` at time 11; `detailSong`
with no version returns code `"B"` with `totalVersions = 2`. -/
theorem c1_witness :
    ∃ ts, detailSong exSongAB11 exName none = .ok ⟨['B'], 2, 2, ts⟩ :=
  c1_detail_after_updates exEmptyStore exSongA exSongAB11 exName ['A'] ['B'] 10
    ⟨['A'], 10⟩ [exOpAB] rfl rfl

/-- C2: `updateSong` enumerates match positions by restarting the
search at `p + 1` after each match found at `p` — so the match list is
exactly the set of all (including overlapping) occurrence positions, in
order — and on success it replaces exactly the one occurrence at the
resolved index by character offset, appends the resulting code as a new
version, and returns the new code with its 1-based version number. -/
theorem c2_updateSong_success
    (data : SongsData) (name : String) (song : Song) (latest : SongVersion)
    (frm repl : List Char) (index : Option Int) (now : Nat)
    (hsong : getSong data name = some song)
    (hlast : song.versions.getLast? = some latest)
    (hfrm : frm ≠ [])
    (hidx : badIndexArg index = false)
    (hne : matchesOf latest.code frm ≠ [])
    (hamb : index = none → (matchesOf latest.code frm).length = 1)
    (hlen : (index.getD 0).toNat < (matchesOf latest.code frm).length) :
    matchesOf latest.code frm
      = (List.range (latest.code.length + 1)).filter (fun q => occursAt latest.code frm q) ∧
    updateSong data name frm repl index now =
      (setSong data name ⟨song.versions ++
          [⟨latest.code.take ((matchesOf latest.code frm).getD (index.getD 0).toNat 0)
              ++ repl
              ++ latest.code.drop ((matchesOf latest.code frm).getD (index.getD 0).toNat 0
                  + frm.length), now⟩]⟩,
        .ok (latest.code.take ((matchesOf latest.code frm).getD (index.getD 0).toNat 0)
              ++ repl
              ++ latest.code.drop ((matchesOf latest.code frm).getD (index.getD 0).toNat 0
                  + frm.length),
          song.versions.length + 1)) := by
  refine ⟨matchesOf_eq_filter latest.code frm, ?_⟩
  have hti : (0 : Int) ≤ index.getD 0 := by
    cases index with
    | none => simp
    | some i =>
      simp only [badIndexArg, decide_eq_false_iff_not, not_lt] at hidx
      simpa using hidx
  have h0 : ¬ (matchesOf latest.code frm).length = 0 := by
    simpa [List.length_eq_zero] using hne
  have h1 : ¬ (1 < (matchesOf latest.code frm).length ∧ index = none) := by
    rintro ⟨hgt, hnone⟩
    rw [hamb hnone] at hgt
    omega
  have h2 : ¬ ((index.getD 0) < 0 ∨
      ((matchesOf latest.code frm).length : Int) ≤ index.getD 0) := by
    push_neg
    omega
  unfold updateSong
  rw [if_neg hfrm]
  rw [hidx]
  simp only [Bool.false_eq_true, if_false]
  rw [hsong]
  simp only
  rw [hlast]
  simp only
  rw [if_neg h0, if_neg h1, if_neg h2]
  simp only [List.length_append, List.length_cons, List.length_nil]

/-- Witness for C2: on code `"aaa"` the search for `"aa"` finds the
overlapping matches `[0, 1]`, and replacing index 1 with `"Z"` yields
`"aZ"` as version 2. -/
theorem c2_witness :
    matchesOf ['a', 'a', 'a'] ['a', 'a'] = [0, 1] ∧
    updateSong exSongAaa exName ['a', 'a'] ['Z'] (some 1) 7 =
      (exSongAaaZ7, .ok (['a', 'Z'], 2)) := by
  have h := c2_updateSong_success exSongAaa exName ⟨[⟨['a', 'a', 'a'], 0⟩]⟩
    ⟨['a', 'a', 'a'], 0⟩ ['a', 'a'] ['Z'] (some 1) 7 rfl rfl (by decide) rfl
    (by decide) (by decide) (by decide)
  refine ⟨?_, ?_⟩
  · rw [h.1]
    decide
  · rw [h.2]
    rfl

/-- Counterexample to C3 as stated: on the store where `x` holds
`"A"`, searching for `"Q"` finds 0 matches, and the supplied index 0 is
`≥` that match count, yet `updateSong` fails with the no-match error,
not an index-out-of-range error (the zero-match check fires first). -/
theorem c3_counterexample :
    (matchesOf ['A'] ['Q']).length = 0 ∧
    updateSong exSongA exName ['Q'] ['B'] (some 0) 1 = (exSongA, .error .noMatch) :=
  ⟨rfl, rfl⟩

/-- C3 (amended): `updateSong` fails with the invalid-argument error on
empty `from`; with the bad-index error on a negative supplied index;
with the ambiguous error carrying the exact count when two or more
matches exist and no index was given; with the index-out-of-range error
when at least one match exists and the supplied index is `≥` the match
count; and with the no-match error when no match exists — and in every
one of these failure cases the store is returned unchanged, so no new
version is appended. -/
theorem c3_updateSong_errors
    (data : SongsData) (name : String) (song : Song) (latest : SongVersion)
    (hsong : getSong data name = some song)
    (hlast : song.versions.getLast? = some latest) :
    (∀ repl index now, updateSong data name [] repl index now = (data, .error .emptyFrom)) ∧
    (∀ frm repl (i : Int) now, frm ≠ [] → i < 0 →
        updateSong data name frm repl (some i) now = (data, .error .badIndex)) ∧
    (∀ frm repl now, frm ≠ [] → 1 < (matchesOf latest.code frm).length →
        updateSong data name frm repl none now =
          (data, .error (.ambiguous (matchesOf latest.code frm).length))) ∧
    (∀ frm repl (i : Int) now, frm ≠ [] → 0 ≤ i → matchesOf latest.code frm ≠ [] →
        ((matchesOf latest.code frm).length : Int) ≤ i →
        updateSong data name frm repl (some i) now =
          (data, .error (.indexOutOfRange i (matchesOf latest.code frm).length))) ∧
    (∀ frm repl index now, frm ≠ [] → badIndexArg index = false →
        matchesOf latest.code frm = [] →
        updateSong data name frm repl index now = (data, .error .noMatch)) := by
  refine ⟨?_, ?_, ?_, ?_, ?_⟩
  · intro repl index now
    unfold updateSong
    rw [if_pos rfl]
  · intro frm repl i now hfrm hi
    unfold updateSong
    rw [if_neg hfrm]
    rw [show badIndexArg (some i) = true by simp [badIndexArg]; omega]
    simp only [if_true]
  · intro frm repl now hfrm hgt
    unfold updateSong
    rw [if_neg hfrm]
    simp only [badIndexArg, Bool.false_eq_true, if_false]
    rw [hsong]
    simp only
    rw [hlast]
    simp only
    rw [if_neg (by omega), if_pos ⟨hgt, by trivial⟩]
  · intro frm repl i now hfrm hi hne hge
    unfold updateSong
    rw [if_neg hfrm]
    rw [show badIndexArg (some i) = false by simp [badIndexArg]; omega]
    simp only [Bool.false_eq_true, if_false]
    rw [hsong]
    simp only
    rw [hlast]
    simp only
    have h0 : ¬ (matchesOf latest.code frm).length = 0 := by
      simpa [List.length_eq_zero] using hne
    rw [if_neg h0]
    rw [if_neg (by rintro ⟨-, h⟩; cases h)]
    rw [if_pos (by right; simpa using hge)]
    rfl
  · intro frm repl index now hfrm hidx hnil
    unfold updateSong
    rw [if_neg hfrm]
    rw [hidx]
    simp only [Bool.false_eq_true, if_false]
    rw [hsong]
    simp only
    rw [hlast]
    simp only
    rw [if_pos (by rw [hnil]; rfl)]

/-- Witness for C3 (amended): each error case exercised on the
one-version store holding `"aaa"`, store returned unchanged. -/
theorem c3_witness :
    updateSong exSongAaa exName [] ['Z'] none 1 = (exSongAaa, .error .emptyFrom) ∧
    updateSong exSongAaa exName ['a'] ['Z'] (some (-1)) 1 = (exSongAaa, .error .badIndex) ∧
    updateSong exSongAaa exName ['a', 'a'] ['Z'] none 1 =
      (exSongAaa, .error (.ambiguous 2)) ∧
    updateSong exSongAaa exName ['a', 'a'] ['Z'] (some 2) 1 =
      (exSongAaa, .error (.indexOutOfRange 2 2)) ∧
    updateSong exSongAaa exName ['Q'] ['Z'] none 1 = (exSongAaa, .error .noMatch) := by
  have h := c3_updateSong_errors exSongAaa exName ⟨[⟨['a', 'a', 'a'], 0⟩]⟩
    ⟨['a', 'a', 'a'], 0⟩ rfl rfl
  exact ⟨h.1 ['Z'] none 1,
    h.2.1 ['a'] ['Z'] (-1) 1 (by decide) (by decide),
    h.2.2.1 ['a', 'a'] ['Z'] 1 (by decide) (by decide),
    h.2.2.2.1 ['a', 'a'] ['Z'] 2 1 (by decide) (by decide) (by decide) (by decide),
    h.2.2.2.2 ['Q'] ['Z'] none 1 (by decide) rfl (by decide)⟩

/-- Counterexample to C4 as stated: on the two-version song `x`
(`"A"` then `"B"`), `detailSong` with requested version 0 does not fail
— `0` is falsy in `version ? version - 1 : totalVersions - 1`, so it
returns the latest version `"B"` as version 2 of 2. -/
theorem c4_counterexample :
    detailSong exSongAB exName (some 0) = .ok ⟨['B'], 2, 2, 1⟩ := rfl

/-- C4 (amended): for every existing song, `detailSong` with the
version argument omitted returns the latest version; a supplied version
of 0 is treated exactly like an omitted argument (returning the latest
version rather than failing); and a supplied version `< 0` or
`> totalVersions` fails with the version-out-of-range error. -/
theorem c4_detail_amended (data : SongsData) (name : String) (song : Song) (sv : SongVersion)
    (hs : getSong data name = some song) (hl : song.versions.getLast? = some sv) :
    detailSong data name none =
      .ok ⟨sv.code, song.versions.length, song.versions.length, sv.createdAt⟩ ∧
    detailSong data name (some 0) = detailSong data name none ∧
    (∀ v : Int, v < 0 →
        detailSong data name (some v) = .error (.versionOutOfRange song.versions.length)) ∧
    (∀ v : Int, (song.versions.length : Int) < v →
        detailSong data name (some v) = .error (.versionOutOfRange song.versions.length)) := by
  have hne : song.versions ≠ [] := by
    intro hnil
    rw [hnil] at hl
    simp at hl
  have hpos : 0 < song.versions.length := List.length_pos.mpr hne
  refine ⟨detailSong_none hs hl, detailSong_zero data name, ?_, ?_⟩
  · intro v hv
    unfold detailSong
    rw [hs]
    simp only [if_neg (show ¬ v = 0 by omega)]
    rw [if_pos (by left; omega)]
  · intro v hv
    unfold detailSong
    rw [hs]
    simp only [if_neg (show ¬ v = 0 by omega)]
    rw [if_pos (by right; omega)]

/-- Witness for C4 (amended), on the two-version song: omitted and
version-0 requests agree on the latest version, while −1 and 3 fail. -/
theorem c4_witness :
    detailSong exSongAB exName none = .ok ⟨['B'], 2, 2, 1⟩ ∧
    detailSong exSongAB exName (some 0) = detailSong exSongAB exName none ∧
    detailSong exSongAB exName (some (-1)) = .error (.versionOutOfRange 2) ∧
    detailSong exSongAB exName (some 3) = .error (.versionOutOfRange 2) := by
  have h := c4_detail_amended exSongAB exName ⟨[⟨['A'], 0⟩, ⟨['B'], 1⟩]⟩ ⟨['B'], 1⟩ rfl rfl
  exact ⟨h.1, h.2.1, h.2.2.1 (-1) (by decide), h.2.2.2 3 (by decide)⟩

/-- C5: a play request whose code evaluation fails returns the 500
error response and leaves the daemon's in-memory `DaemonState` (state,
name, version, code) exactly as it was — no partial state commit, and
no timer reset. -/
theorem c5_play_eval_failure (st : DaemonState) (eng : Engine) (c : String)
    (nm : Option String) (ver : Option Nat)
    (hc : c ≠ "") (hinit : eng.init = true) (heval : eng.evalOk = false) :
    handlePlay st eng (some c) nm ver = (st, .errorResp, false) := by
  unfold handlePlay
  simp only
  rw [if_neg hc]
  rw [hinit]
  simp only [Bool.not_true, Bool.false_eq_true, if_false]
  by_cases hsp : (decide (st.state = PState.playing) && eng.stopThrows) = true
  · rw [if_pos hsp]
  · rw [if_neg hsp]
    rw [heval]
    simp

/-- Witness for C5: evaluation failure while `x` v1 is playing leaves
the playing snapshot untouched and yields the error response. -/
theorem c5_witness :
    handlePlay playingSnapshot evalFailEngine (some exCode) (some exName) (some 2) =
      (playingSnapshot, .errorResp, false) :=
  c5_play_eval_failure playingSnapshot evalFailEngine exCode (some exName) (some 2)
    (by decide) rfl rfl

/-- A successful play response is only produced on the branch that
called `resetInactivityTimer`. -/
theorem handlePlay_reset_of_ok (st : DaemonState) (eng : Engine) (c n : Option String)
    (v : Option Nat) (h : (handlePlay st eng c n v).2.1.isOk = true) :
    (handlePlay st eng c n v).2.2 = true := by
  cases c with
  | none => simp [handlePlay, RespBody.isOk] at h
  | some s =>
    unfold handlePlay at h ⊢
    simp only at h ⊢
    split_ifs at h ⊢ <;> simp_all [RespBody.isOk]

/-- A successful stop response is only produced on the branch that
called `resetInactivityTimer`. -/
theorem handleStop_reset_of_ok (st : DaemonState) (eng : Engine)
    (h : (handleStop st eng).2.1.isOk = true) : (handleStop st eng).2.2 = true := by
  unfold handleStop at h ⊢
  split_ifs at h ⊢ <;> simp_all [RespBody.isOk]

/-- A successful pause response is only produced on the branch that
called `resetInactivityTimer`. -/
theorem handlePause_reset_of_ok (st : DaemonState) (eng : Engine)
    (h : (handlePause st eng).2.1.isOk = true) : (handlePause st eng).2.2 = true := by
  unfold handlePause at h ⊢
  split_ifs at h ⊢ <;> simp_all [RespBody.isOk]

/-- A successful evaluate response is only produced on the branch that
called `resetInactivityTimer`. -/
theorem handleEvaluate_reset_of_ok (st : DaemonState) (eng : Engine) (c n : Option String)
    (v : Option Nat) (h : (handleEvaluate st eng c n v).2.1.isOk = true) :
    (handleEvaluate st eng c n v).2.2 = true := by
  cases c with
  | none => simp [handleEvaluate, RespBody.isOk] at h
  | some s =>
    unfold handleEvaluate at h ⊢
    simp only at h ⊢
    split_ifs at h ⊢ <;> simp_all [RespBody.isOk]

/-- `handleValidate` never calls `resetInactivityTimer`, on any branch
— success included. -/
theorem handleValidate_no_reset (st : DaemonState) (eng : Engine) (c : Option String) :
    (handleValidate st eng c).2.2 = false := by
  cases c with
  | none => rfl
  | some s =>
    unfold handleValidate
    simp only
    split_ifs <;> rfl

/-- Counterexample to C6 as stated: a successful validate request
(response `{ok:true, …}`) does not reset the inactivity timer — the
deadline stays at its old value instead of moving to
`now + INACTIVITY_TIMEOUT_MS`. -/
theorem c6_counterexample :
    (handleRequest exProc niceEngine 1000 (.validate (some exCode))).2.isOk = true ∧
    (handleRequest exProc niceEngine 1000 (.validate (some exCode))).1.deadline = 7 ∧
    (7 : Nat) ≠ 1000 + INACTIVITY_TIMEOUT_MS := by decide

/-- C6 (amended): every successful play, stop, pause, and evaluate
request moves the single inactivity deadline to
`now + INACTIVITY_TIMEOUT_MS`; validate requests — successful or not —
never touch it, so only the other four defer the fixed-duration
shutdown. -/
theorem c6_timer_amended (p : DaemonProc) (eng : Engine) (now : Nat) :
    (∀ c n v, (handleRequest p eng now (.play c n v)).2.isOk = true →
        (handleRequest p eng now (.play c n v)).1.deadline = now + INACTIVITY_TIMEOUT_MS) ∧
    ((handleRequest p eng now .stop).2.isOk = true →
        (handleRequest p eng now .stop).1.deadline = now + INACTIVITY_TIMEOUT_MS) ∧
    ((handleRequest p eng now .pause).2.isOk = true →
        (handleRequest p eng now .pause).1.deadline = now + INACTIVITY_TIMEOUT_MS) ∧
    (∀ c n v, (handleRequest p eng now (.evaluate c n v)).2.isOk = true →
        (handleRequest p eng now (.evaluate c n v)).1.deadline = now + INACTIVITY_TIMEOUT_MS) ∧
    (∀ c, (handleRequest p eng now (.validate c)).1.deadline = p.deadline) := by
  refine ⟨?_, ?_, ?_, ?_, ?_⟩
  · intro c n v hok
    have hr := handlePlay_reset_of_ok p.st eng c n v hok
    show (if (handlePlay p.st eng c n v).2.2 then now + INACTIVITY_TIMEOUT_MS
        else p.deadline) = now + INACTIVITY_TIMEOUT_MS
    rw [hr]
    rfl
  · intro hok
    have hr := handleStop_reset_of_ok p.st eng hok
    show (if (handleStop p.st eng).2.2 then now + INACTIVITY_TIMEOUT_MS
        else p.deadline) = now + INACTIVITY_TIMEOUT_MS
    rw [hr]
    rfl
  · intro hok
    have hr := handlePause_reset_of_ok p.st eng hok
    show (if (handlePause p.st eng).2.2 then now + INACTIVITY_TIMEOUT_MS
        else p.deadline) = now + INACTIVITY_TIMEOUT_MS
    rw [hr]
    rfl
  · intro c n v hok
    have hr := handleEvaluate_reset_of_ok p.st eng c n v hok
    show (if (handleEvaluate p.st eng c n v).2.2 then now + INACTIVITY_TIMEOUT_MS
        else p.deadline) = now + INACTIVITY_TIMEOUT_MS
    rw [hr]
    rfl
  · intro c
    have hr := handleValidate_no_reset p.st eng c
    show (if (handleValidate p.st eng c).2.2 then now + INACTIVITY_TIMEOUT_MS
        else p.deadline) = p.deadline
    rw [hr]
    rfl

/-- Witness for C6 (amended): a successful stop at time 1000 moves the
deadline to `1000 + INACTIVITY_TIMEOUT_MS`; a successful validate at
time 1000 leaves the deadline at its old value 7. -/
theorem c6_witness :
    (handleRequest exProc niceEngine 1000 .stop).1.deadline = 1000 + INACTIVITY_TIMEOUT_MS ∧
    (handleRequest exProc niceEngine 1000 (.validate (some exCode))).1.deadline =
      exProc.deadline := by
  have h := c6_timer_amended exProc niceEngine 1000
  exact ⟨h.2.1 (by decide), h.2.2.2.2 (some exCode)⟩

/-- Counterexample to C7 as stated: a contender that entered the loop
at time 0 and polls at time 5001 force-clears a marker created at time
5000 — a marker only 1 ms old, far younger than the 5000 ms threshold.
The takeover condition is the contender's own elapsed wait, not the
marker's age. -/
theorem c7_counterexample :
    acquireStep 0 5001 (some 5000) = .forceClearRetry ∧
    5001 - 5000 ≤ LOCK_TIMEOUT ∧
    LOCK_TIMEOUT < 5001 - 0 := by decide

/-- C7 (amended): during lock acquisition, a contending caller never
force-clears the marker while its own elapsed waiting time is within
the 5000 ms timeout — until then it polls with the fixed 50 ms backoff
— and it force-clears the marker exactly when its own waiting time
exceeds that threshold, regardless of how old the marker itself is. -/
theorem c7_acquire_amended (start now created : Nat) :
    (now - start ≤ LOCK_TIMEOUT →
        acquireStep start now (some created) = .backoffRetry 50) ∧
    (LOCK_TIMEOUT < now - start →
        acquireStep start now (some created) = .forceClearRetry) ∧
    acquireStep start now none = .acquired := by
  refine ⟨?_, ?_, rfl⟩
  · intro h
    unfold acquireStep
    rw [if_neg (by omega)]
  · intro h
    unfold acquireStep
    rw [if_pos h]

/-- Witness for C7 (amended): at 4000 ms of waiting the contender still
backs off; at 6000 ms it force-clears even a 1 ms old marker. -/
theorem c7_witness :
    acquireStep 0 4000 (some 0) = .backoffRetry 50 ∧
    acquireStep 0 6000 (some 5999) = .forceClearRetry :=
  ⟨(c7_acquire_amended 0 4000 0).1 (by decide),
   (c7_acquire_amended 0 6000 5999).2.1 (by decide)⟩

/-- C8: when the `update` command's find & replace succeeds but the
updated code fails validation, the new version is still persisted (the
song's version count grows by one), the auto-play `client.evaluate`
step is skipped, and the command reports the saved-but-not-played
outcome instead of rolling back the save. -/
theorem c8_saved_not_played
    (data d' : SongsData) (name : String) (frm repl : List Char) (index : Option Int)
    (now : Nat) (song : Song) (c : List Char) (v : Nat) (evalOk : Bool)
    (hsong : getSong data name = some song)
    (hupd : updateSong data name frm repl index now = (d', .ok (c, v))) :
    updateCommand data name frm repl index now false evalOk = (d', .savedNotPlayed v) ∧
    getSong d' name = some ⟨song.versions ++ [⟨c, now⟩]⟩ ∧
    v = song.versions.length + 1 := by
  obtain ⟨song', hs', hd, hv⟩ := updateSong_ok hupd
  rw [hsong] at hs'
  injection hs' with hss
  subst hss
  refine ⟨?_, ?_, hv⟩
  · unfold updateCommand
    rw [hupd]
    rfl
  · subst hd
    exact getSong_setSong_self data name _

/-- Witness for C8: replacing `"aa"` (index 0) by `"Z"` in `"aaa"`
succeeds, validation fails, and the store still gains version 2
(`"Za"`) while the outcome reports saved-but-not-played. -/
theorem c8_witness :
    updateCommand exSongAaa exName ['a', 'a'] ['Z'] (some 0) 5 false true =
      (exSongAaaZ5, .savedNotPlayed 2) ∧
    getSong exSongAaaZ5 exName = some ⟨[⟨['a', 'a', 'a'], 0⟩, ⟨['Z', 'a'], 5⟩]⟩ ∧
    (2 : Nat) = 1 + 1 := by
  have h := c8_saved_not_played exSongAaa exSongAaaZ5 exName ['a', 'a'] ['Z'] (some 0) 5
    ⟨[⟨['a', 'a', 'a'], 0⟩]⟩ ['Z', 'a'] 2 true rfl rfl
  exact ⟨h.1, h.2.1, h.2.2⟩

/-- C9: `withLock` removes the lock marker when the wrapped operation
finishes, whether it returned normally or threw, and a thrown error is
still propagated to the caller after the marker is removed — a failing
mutation never leaves the collection lock held. -/
theorem c9_withLock_release {α : Type} (w : FS)
    (fn : SongsData → SongsData × Except StoreErr α) :
    (withLock w fn).1.lock = none ∧ (withLock w fn).2 = (fn w.songs).2 := by
  unfold withLock
  cases h : (fn w.songs).2 <;> simp [h]

/-- Counterexample to C10 as stated: a pause request while the snapshot
is already `paused` also makes the response and the stored state agree
on `paused` — agreement is not exclusive to a prior `playing` state. -/
theorem c10_counterexample :
    (handlePause pausedSnapshot niceEngine).1.state = PState.paused ∧
    (handlePause pausedSnapshot niceEngine).2.1.stateField = some PState.paused ∧
    pausedSnapshot.state ≠ PState.playing := by decide

/-- C10 (amended): a pause request while the snapshot is `stopped`
leaves the stored state `stopped` yet responds `{ok:true,
state:"paused"}`, so a subsequent current request reports `stopped` and
disagrees with the pause response; the response always says `paused`,
and the stored state ends up `paused` exactly when the prior state was
`playing` or `paused`. -/
theorem c10_pause_amended (st : DaemonState) (eng : Engine)
    (h : (eng.init && eng.pauseThrows) = false) :
    (st.state = PState.stopped → handlePause st eng = (st, .pauseOk, true)) ∧
    (handlePause st eng).2.1.stateField = some PState.paused ∧
    ((handlePause st eng).1.state = PState.paused ↔
      (st.state = PState.playing ∨ st.state = PState.paused)) ∧
    (st.state = PState.stopped →
      (handleCurrent (handlePause st eng).1).2.1.stateField = some PState.stopped) := by
  unfold handlePause
  rw [h]
  simp only [Bool.false_eq_true, if_false]
  refine ⟨?_, ?_, ?_, ?_⟩
  · intro hs
    rw [if_neg (by rw [hs]; intro hh; cases hh)]
  · by_cases hp : st.state = PState.playing <;>
      simp [hp, RespBody.stateField]
  · cases hst : st.state <;> simp [hst, RespBody.stateField]
  · intro hs
    rw [if_neg (by rw [hs]; intro hh; cases hh)]
    simp [handleCurrent, RespBody.stateField, hs]

/-- Witness for C10 (amended): pausing the stopped snapshot answers
`paused` while the stored state (what `current` then reports) remains
`stopped`. -/
theorem c10_witness :
    handlePause stoppedSnapshot niceEngine = (stoppedSnapshot, .pauseOk, true) ∧
    ((handlePause stoppedSnapshot niceEngine).1.state = PState.paused ↔
      (stoppedSnapshot.state = PState.playing ∨ stoppedSnapshot.state = PState.paused)) ∧
    (handleCurrent (handlePause stoppedSnapshot niceEngine).1).2.1.stateField =
      some PState.stopped := by
  have h := c10_pause_amended stoppedSnapshot niceEngine rfl
  exact ⟨h.1 rfl, h.2.2.1, h.2.2.2 rfl⟩

end Strudel
